import Mathlib

/-!
Verification of the TileDB buffer layer (`tiledb/sm/buffer/buffer.cc`).

This file gives a shallow embedding of the classes `BufferBase`,
`OwningMemoryBuffer<Alloc>`, `ConstBuffer` and `PreallocatedBuffer` and proves
or refutes the specification's claims about them.

Modelling conventions:
- Machine integers (`uint64_t`) are modelled as `Nat` with explicit wrapping
  where the source can wrap: `usub` is wrapping 64-bit subtraction and
  additions performed by the source are taken `% w64`.
- A byte region is a `List Nat`; `memcpy` becomes list surgery (`bytesAt`,
  `writeBytes`), faithful whenever the source's copy stays in bounds (out of
  bounds the C++ is undefined behaviour and has no model).
- A raw pointer that may be null is an `Option`; for the owning buffer the
  `data_` pointer is a `DataPtr` tag saying whether it is null, points into the
  buffer's own allocation `vec_`, or points at externally owned memory.
- Fallible operations return `Status` (class `Status`: OK or an error kind with
  a message); operations that can throw return `Except String`.
- The allocator parameter `Alloc` only chooses where bytes live; it has no
  observable effect modelled here, so `OwningMemoryBuffer` is a single type and
  the allocator-extended constructors coincide with the plain ones.
-/

/-- `2^64`, modulus of the `uint64_t` arithmetic used throughout the source. -/
def w64 : Nat := 2 ^ 64

/-- Wrapping `uint64_t` subtraction `a - b`, for `a b < w64`. -/
def usub (a b : Nat) : Nat := (w64 + a - b) % w64

/-- Result type of fallible buffer operations (class `Status`).
`Status_BufferError` and `Status_PreallocatedBufferError` are distinct error
kinds in the source and are distinct constructors here. -/
inductive Status where
  | Ok : Status
  | BufferError (msg : String) : Status
  | PreallocatedBufferError (msg : String) : Status
deriving DecidableEq, Repr

/-- Message of `BufferBase::read` overflow errors. -/
def msgReadOverflow : String := "Read buffer overflow; may not read beyond buffer size"

/-- Message of `OwningMemoryBuffer::realloc` on a non-owning buffer. -/
def msgCannotRealloc : String := "Cannot reallocate buffer; Buffer does not own data"

/-- Message of `OwningMemoryBuffer::write` on a non-owning buffer. -/
def msgCannotWrite : String := "Cannot write to buffer; Buffer does not own the already stored data"

/-- Message of the `BufferStatusException` thrown by `ensure_alloced_size` on a
preallocated buffer. -/
def msgPreallocFixed : String := "Failed to reallocate. Buffer is preallocated to a fixed size."

/-- Message of the `std::out_of_range` thrown by `BufferBase::set_offset`. -/
def msgSetOffset : String := "BufferBase::set_offset"

/-- Message of `PreallocatedBuffer::write` overflow errors. -/
def msgPreallocWrite : String := "Write would overflow buffer."

/-- `Status::message()`. -/
def Status.message : Status → String
  | Status.Ok => ""
  | Status.BufferError m => m
  | Status.PreallocatedBufferError m => m

/-- `throw_if_not_ok`: converts a non-OK `Status` into a thrown exception. -/
def throw_if_not_ok (st : Status) : Except String Unit :=
  if st = Status.Ok then Except.ok () else Except.error st.message

/-- The `n` bytes starting at byte offset `off` of region `d` (`none` = null
pointer), as read by `memcpy(dst, d + off, n)`.  Faithful whenever the C++ read
is in bounds (`off + n ≤` region length). -/
def bytesAt (d : Option (List Nat)) (off n : Nat) : List Nat :=
  ((d.getD []).drop off).take n

/-- `memcpy(region + off, src, n)`: overwrite `n` bytes of `region` at `off`
with the first `n` bytes of `src`.  Faithful whenever the C++ copy is in bounds
(`off + n ≤ region.length` and `n ≤ src.length`). -/
def writeBytes (region src : List Nat) (off n : Nat) : List Nat :=
  region.take off ++ src.take n ++ region.drop (off + n)

/-- `class BufferBase`: a byte region `data_` with logical size `size_` and a
read cursor `offset_`.  `ConstBuffer` adds no state, and `PreallocatedBuffer`
shares the same three fields, so both are modelled over this structure. -/
structure BufferBase where
  dataBytes : Option (List Nat)
  size : Nat
  offset : Nat
deriving DecidableEq, Repr

/-- `BufferBase::BufferBase(data, size)` (both overloads): offset starts at 0. -/
def BufferBase.mk_raw (data : Option (List Nat)) (size : Nat) : BufferBase :=
  { dataBytes := data, size := size, offset := 0 }

/-- `BufferBase::reset_offset`. -/
def BufferBase.reset_offset (b : BufferBase) : BufferBase :=
  { b with offset := 0 }

/-- `BufferBase::set_offset`: `assert_offset_is_valid` throws
`std::out_of_range` when `offset > size_`. -/
def BufferBase.set_offset (b : BufferBase) (o : Nat) : Except String BufferBase :=
  if b.size < o then Except.error msgSetOffset else Except.ok { b with offset := o }

/-- `BufferBase::advance_offset`: `if (nbytes >= size_ - offset_) offset_ =
size_; else offset_ += nbytes;` with `uint64_t` arithmetic. -/
def BufferBase.advance_offset (b : BufferBase) (nbytes : Nat) : BufferBase :=
  if usub b.size b.offset ≤ nbytes then { b with offset := b.size }
  else { b with offset := (b.offset + nbytes) % w64 }

/-- `BufferBase::end`. -/
def BufferBase.atEnd (b : BufferBase) : Bool :=
  b.offset == b.size

/-- `BufferBase::read(destination, nbytes)` (cursor read).  Returns the status,
the bytes copied into `destination` (empty on failure: no partial copy), and
the buffer afterwards. -/
def BufferBase.read (b : BufferBase) (nbytes : Nat) : Status × List Nat × BufferBase :=
  if usub b.size b.offset < nbytes then
    (Status.BufferError msgReadOverflow, [], b)
  else
    (Status.Ok, bytesAt b.dataBytes b.offset nbytes,
      { b with offset := (b.offset + nbytes) % w64 })

/-- `BufferBase::read(destination, offset, nbytes)` (positional read).  The
bounds check is the wrapping `uint64_t` test `nbytes > size_ - offset` of the
source; the buffer is returned unchanged in both branches because the method
never assigns a member. -/
def BufferBase.read_at (b : BufferBase) (off nbytes : Nat) : Status × List Nat × BufferBase :=
  if usub b.size off < nbytes then
    (Status.BufferError msgReadOverflow, [], b)
  else
    (Status.Ok, bytesAt b.dataBytes off nbytes, b)

/-- `ConstBuffer::ConstBuffer(data, size)`. -/
def ConstBuffer.mk_raw (data : Option (List Nat)) (size : Nat) : BufferBase :=
  BufferBase.mk_raw data size

/-- `ConstBuffer::nbytes_left_to_read`: `size_ - offset_` (`uint64_t`). -/
def ConstBuffer.nbytes_left_to_read (b : BufferBase) : Nat :=
  usub b.size b.offset

/-- `class PreallocatedBuffer`: a write-capable cursor over externally supplied
memory.  `data` holds the bytes of the external region (mutated by writes). -/
structure PreallocatedBuffer where
  data : List Nat
  size : Nat
  offset : Nat
deriving DecidableEq, Repr

/-- `PreallocatedBuffer::PreallocatedBuffer(data, size)`. -/
def PreallocatedBuffer.mk_raw (data : List Nat) (size : Nat) : PreallocatedBuffer :=
  { data := data, size := size, offset := 0 }

/-- `PreallocatedBuffer::free_space`: `size_ - offset_` (`uint64_t`). -/
def PreallocatedBuffer.free_space (b : PreallocatedBuffer) : Nat :=
  usub b.size b.offset

/-- `PreallocatedBuffer::write(buffer, nbytes)`. -/
def PreallocatedBuffer.write (b : PreallocatedBuffer) (src : List Nat) (nbytes : Nat) :
    Status × PreallocatedBuffer :=
  if usub b.size b.offset < nbytes then
    (Status.PreallocatedBufferError msgPreallocWrite, b)
  else
    (Status.Ok, { b with data := writeBytes b.data src b.offset nbytes,
                         offset := (b.offset + nbytes) % w64 })

/-- Where the `data_` pointer of an `OwningMemoryBuffer` points: nowhere
(null), into the buffer's own allocation `vec_`, or at externally owned
memory whose bytes are carried in the tag. -/
inductive DataPtr where
  | null : DataPtr
  | vecPtr : DataPtr
  | external (bytes : List Nat) : DataPtr
deriving DecidableEq, Repr

/-- `class OwningMemoryBuffer<Alloc>` (alias `Buffer`).  `vec` is the
`tdb::pmr::vector<uint8_t> vec_` backing allocation; `alloced_size()` is its
length. -/
structure OwningMemoryBuffer where
  dataPtr : DataPtr
  size : Nat
  offset : Nat
  vec : List Nat
  owns_data : Bool
  preallocated : Bool
deriving DecidableEq, Repr

/-- `OwningMemoryBuffer::alloced_size`: `vec_.size()`. -/
def OwningMemoryBuffer.alloced_size (b : OwningMemoryBuffer) : Nat :=
  b.vec.length

/-- The byte region reachable from `data_` (used by `ConstBuffer(Buffer*)`). -/
def OwningMemoryBuffer.bytes (b : OwningMemoryBuffer) : Option (List Nat) :=
  match b.dataPtr with
  | DataPtr.null => none
  | DataPtr.vecPtr => some b.vec
  | DataPtr.external bs => some bs

/-- `OwningMemoryBuffer::OwningMemoryBuffer(alloc)`: empty, growable, owning. -/
def OwningMemoryBuffer.mk_empty : OwningMemoryBuffer :=
  { dataPtr := DataPtr.null, size := 0, offset := 0, vec := [],
    owns_data := true, preallocated := false }

/-- `OwningMemoryBuffer::OwningMemoryBuffer(data, size, alloc)`: wraps
externally owned memory, `owns_data_ = false`. -/
def OwningMemoryBuffer.from_external (data : Option (List Nat)) (size : Nat) :
    OwningMemoryBuffer :=
  { dataPtr := match data with
               | none => DataPtr.null
               | some bs => DataPtr.external bs,
    size := size, offset := 0, vec := [], owns_data := false, preallocated := false }

/-- `std::vector<uint8_t>::resize(n)`: keep the first `n` existing bytes,
value-initialise (zero) any new ones. -/
def resizeVec (v : List Nat) (n : Nat) : List Nat :=
  v.take n ++ List.replicate (n - v.length) 0

/-- `OwningMemoryBuffer::realloc(nbytes)`. -/
def OwningMemoryBuffer.realloc (b : OwningMemoryBuffer) (nbytes : Nat) :
    Status × OwningMemoryBuffer :=
  if b.owns_data = false then
    (Status.BufferError msgCannotRealloc, b)
  else if b.alloced_size < nbytes then
    (Status.Ok, { b with vec := resizeVec b.vec nbytes, dataPtr := DataPtr.vecPtr })
  else
    (Status.Ok, b)

/-- The loop `while (new_alloc_size < nbytes) new_alloc_size *= 2;`, fuelled.
Fuel `n` always suffices (each doubling from `c ≥ 1` makes `n - c` strictly
smaller), so `doubleUntil` below computes exactly the loop's result.  The
source multiplies in `uint64_t`; the model multiplies in `Nat`, which agrees
as long as the doubled capacity stays below `2^64` (for larger requests the
source loop would wrap and not terminate).  The `0 < c` guard encodes that the
loop does not terminate from `c = 0` with `0 < n`; that call never arises from
`ensure_alloced_size`. -/
def doubleUntilAux : Nat → Nat → Nat → Nat
  | 0, c, _ => c
  | fuel + 1, c, n => if 0 < c ∧ c < n then doubleUntilAux fuel (c * 2) n else c

/-- Result of the capacity-doubling loop started at `c` with target `n`. -/
def doubleUntil (c n : Nat) : Nat :=
  doubleUntilAux n c n

/-- `OwningMemoryBuffer::ensure_alloced_size(nbytes)`.  Throws (here:
`Except.error`) on a preallocated buffer that would have to grow; otherwise
no-op or geometric growth through `realloc`. -/
def OwningMemoryBuffer.ensure_alloced_size (b : OwningMemoryBuffer) (nbytes : Nat) :
    Except String (Status × OwningMemoryBuffer) :=
  if b.preallocated = true ∧ b.alloced_size < nbytes then
    Except.error msgPreallocFixed
  else if b.preallocated = true ∨ nbytes ≤ b.alloced_size then
    Except.ok (Status.Ok, b)
  else
    let start := if b.alloced_size = 0 then nbytes else b.alloced_size
    Except.ok (b.realloc (doubleUntil start nbytes))

/-- `OwningMemoryBuffer::OwningMemoryBuffer(size, alloc)` (preallocated mode).
The member initialiser list sets `size_ = size` and `preallocated_ = true`
before the body runs `throw_if_not_ok(ensure_alloced_size(size_)); size_ = 0;`. -/
def OwningMemoryBuffer.mk_prealloc (size : Nat) : Except String OwningMemoryBuffer :=
  let b0 : OwningMemoryBuffer :=
    { dataPtr := DataPtr.null, size := size, offset := 0, vec := [],
      owns_data := true, preallocated := true }
  match b0.ensure_alloced_size b0.size with
  | Except.error e => Except.error e
  | Except.ok (st, b1) =>
    match throw_if_not_ok st with
    | Except.error e => Except.error e
    | Except.ok _ => Except.ok { b1 with size := 0 }

/-- `OwningMemoryBuffer::OwningMemoryBuffer(const OwningMemoryBuffer&)`.
`BufferBase` is default-constructed (null data, size 0, offset 0), `vec_` is
deep-copied, the flags and `offset_` are copied, and only when the source owns
non-null data are `data_` (rebased onto the copy's own `vec_`) and `size_`
taken over.  The allocator-extended copy constructor (same file, lines
193-204) runs the identical statements and is `copy_ctor_alloc` below. -/
def OwningMemoryBuffer.copy_ctor (b : OwningMemoryBuffer) : OwningMemoryBuffer :=
  let c : OwningMemoryBuffer :=
    { dataPtr := DataPtr.null, size := 0, offset := b.offset, vec := b.vec,
      owns_data := b.owns_data, preallocated := b.preallocated }
  if b.owns_data = true ∧ b.dataPtr ≠ DataPtr.null then
    { c with dataPtr := DataPtr.vecPtr, size := b.size }
  else c

/-- The allocator-extended copy constructor: identical observable behaviour
(the allocator only decides where the copied vector's storage comes from,
which the model does not track). -/
def OwningMemoryBuffer.copy_ctor_alloc (b : OwningMemoryBuffer) : OwningMemoryBuffer :=
  b.copy_ctor

/-- `OwningMemoryBuffer::OwningMemoryBuffer(OwningMemoryBuffer&&)`: the
destination takes `data_`, `size_`, `offset_`, the vector and the flags; the
source is left with exchanged-out null data, size 0, offset 0, a moved-from
(empty) vector, and its flags untouched.  Returns (destination, source after
the move). -/
def OwningMemoryBuffer.move_ctor (b : OwningMemoryBuffer) :
    OwningMemoryBuffer × OwningMemoryBuffer :=
  ({ dataPtr := b.dataPtr, size := b.size, offset := b.offset, vec := b.vec,
     owns_data := b.owns_data, preallocated := b.preallocated },
   { dataPtr := DataPtr.null, size := 0, offset := 0, vec := [],
     owns_data := b.owns_data, preallocated := b.preallocated })

/-- `OwningMemoryBuffer::swap`: exchanges every member.  Returns the pair
(first buffer afterwards, second buffer afterwards). -/
def OwningMemoryBuffer.swap (a b : OwningMemoryBuffer) :
    OwningMemoryBuffer × OwningMemoryBuffer :=
  (b, a)

/-- `OwningMemoryBuffer::operator=(OwningMemoryBuffer&&)`: guarded self-move
(identity, not expressible for distinct values here) and otherwise
`swap(buff)`.  Returns (destination afterwards, source afterwards). -/
def OwningMemoryBuffer.move_assign (dest src : OwningMemoryBuffer) :
    OwningMemoryBuffer × OwningMemoryBuffer :=
  (src, dest)

/-- `OwningMemoryBuffer::operator=(const OwningMemoryBuffer&)`: `clear()`,
construct a temporary copy of `buff`, swap with it — the destination ends as a
fresh copy of the source (the source is untouched). -/
def OwningMemoryBuffer.copy_assign (_dest src : OwningMemoryBuffer) :
    OwningMemoryBuffer :=
  src.copy_ctor

/-- `OwningMemoryBuffer::clear`. -/
def OwningMemoryBuffer.clear (b : OwningMemoryBuffer) : OwningMemoryBuffer :=
  { dataPtr := DataPtr.null, size := 0, offset := 0,
    vec := if b.dataPtr ≠ DataPtr.null ∧ b.owns_data = true then [] else b.vec,
    owns_data := b.owns_data, preallocated := b.preallocated }

/-- `OwningMemoryBuffer::reset_size`. -/
def OwningMemoryBuffer.reset_size (b : OwningMemoryBuffer) : OwningMemoryBuffer :=
  { b with offset := 0, size := 0 }

/-- `OwningMemoryBuffer::set_size`. -/
def OwningMemoryBuffer.set_size (b : OwningMemoryBuffer) (n : Nat) : OwningMemoryBuffer :=
  { b with size := n }

/-- `OwningMemoryBuffer::advance_size`: `size_ += nbytes` (`uint64_t`); the
`assert(owns_data_)` is a debug-only precondition, not a branch. -/
def OwningMemoryBuffer.advance_size (b : OwningMemoryBuffer) (nbytes : Nat) :
    OwningMemoryBuffer :=
  { b with size := (b.size + nbytes) % w64 }

/-- `OwningMemoryBuffer::free_space`: `alloced_size() - size_` (`uint64_t`). -/
def OwningMemoryBuffer.free_space (b : OwningMemoryBuffer) : Nat :=
  usub b.alloced_size b.size

/-- `BufferBase::set_offset` as inherited by `OwningMemoryBuffer` (same code
over the same three base fields). -/
def OwningMemoryBuffer.set_offset (b : OwningMemoryBuffer) (o : Nat) :
    Except String OwningMemoryBuffer :=
  if b.size < o then Except.error msgSetOffset else Except.ok { b with offset := o }

/-- `OwningMemoryBuffer::write(const void* buffer, uint64_t nbytes)` (cursor
raw write): grow via `ensure_alloced_size(offset_ + nbytes)`, copy at the
cursor, advance the cursor, `size_ = max(offset_, size_)`. -/
def OwningMemoryBuffer.write_raw (b : OwningMemoryBuffer) (src : List Nat) (nbytes : Nat) :
    Except String (Status × OwningMemoryBuffer) :=
  if b.owns_data = false then
    Except.ok (Status.BufferError msgCannotWrite, b)
  else
    match b.ensure_alloced_size ((b.offset + nbytes) % w64) with
    | Except.error e => Except.error e
    | Except.ok (st, b1) =>
      if st ≠ Status.Ok then Except.ok (st, b1)
      else
        Except.ok (Status.Ok,
          { b1 with vec := writeBytes b1.vec src b1.offset nbytes,
                    offset := (b1.offset + nbytes) % w64,
                    size := max ((b1.offset + nbytes) % w64) b1.size })

/-- `OwningMemoryBuffer::write(const void* buffer, uint64_t offset, uint64_t
nbytes)` (positional raw write): does not move the cursor,
`size_ = max(offset + nbytes, size_)`. -/
def OwningMemoryBuffer.write_raw_at (b : OwningMemoryBuffer) (src : List Nat)
    (off nbytes : Nat) : Except String (Status × OwningMemoryBuffer) :=
  if b.owns_data = false then
    Except.ok (Status.BufferError msgCannotWrite, b)
  else
    match b.ensure_alloced_size ((off + nbytes) % w64) with
    | Except.error e => Except.error e
    | Except.ok (st, b1) =>
      if st ≠ Status.Ok then Except.ok (st, b1)
      else
        Except.ok (Status.Ok,
          { b1 with vec := writeBytes b1.vec src off nbytes,
                    size := max ((off + nbytes) % w64) b1.size })

/-- `OwningMemoryBuffer::write(ConstBuffer* buff)` (no-length view write):
copies `min(alloced_size() - offset_, buff->nbytes_left_to_read())` bytes via
`buff->read` into `data_ + offset_` without growing, then advances the cursor
and takes `size_ = max(offset_, size_)`.  Returns (status, destination
afterwards, source view afterwards). -/
def OwningMemoryBuffer.write_cbuf (b : OwningMemoryBuffer) (src : BufferBase) :
    Status × OwningMemoryBuffer × BufferBase :=
  if b.owns_data = false then
    (Status.BufferError msgCannotWrite, b, src)
  else
    let bytes_left_to_write := usub b.alloced_size b.offset
    let bytes_left_to_read := ConstBuffer.nbytes_left_to_read src
    let bytes_to_copy := min bytes_left_to_write bytes_left_to_read
    let r := src.read bytes_to_copy
    if r.1 ≠ Status.Ok then (r.1, b, r.2.2)
    else
      let off := (b.offset + bytes_to_copy) % w64
      (Status.Ok,
        { b with vec := writeBytes b.vec r.2.1 b.offset bytes_to_copy,
                 offset := off, size := max off b.size },
        r.2.2)

/-- `OwningMemoryBuffer::write(ConstBuffer* buff, uint64_t nbytes)`: grow via
`ensure_alloced_size(offset_ + nbytes)`, read exactly `nbytes` from the view
(which fails recoverably if it has fewer unread bytes), advance and
`size_ = max(offset_, size_)`. -/
def OwningMemoryBuffer.write_cbuf_n (b : OwningMemoryBuffer) (src : BufferBase)
    (nbytes : Nat) : Except String (Status × OwningMemoryBuffer × BufferBase) :=
  if b.owns_data = false then
    Except.ok (Status.BufferError msgCannotWrite, b, src)
  else
    match b.ensure_alloced_size ((b.offset + nbytes) % w64) with
    | Except.error e => Except.error e
    | Except.ok (st, b1) =>
      if st ≠ Status.Ok then Except.ok (st, b1, src)
      else
        let r := src.read nbytes
        if r.1 ≠ Status.Ok then Except.ok (r.1, b1, r.2.2)
        else
          Except.ok (Status.Ok,
            { b1 with vec := writeBytes b1.vec r.2.1 b1.offset nbytes,
                      offset := (b1.offset + nbytes) % w64,
                      size := max ((b1.offset + nbytes) % w64) b1.size },
            r.2.2)

/-- `ConstBuffer::ConstBuffer(Buffer* buff)`: captures `buff->data()` and
`buff->size()` at construction time. -/
def ConstBuffer.ofBuffer (b : OwningMemoryBuffer) : BufferBase :=
  BufferBase.mk_raw b.bytes b.size

/-! ### Concrete buffers used by the witnesses -/

/-- An owning growable buffer with capacity 4, two logical bytes, cursor at 1. -/
def bufC5 : OwningMemoryBuffer :=
  { dataPtr := DataPtr.vecPtr, size := 2, offset := 1, vec := [7, 8, 9, 0],
    owns_data := true, preallocated := false }

/-- An owning growable buffer with capacity 6, cursor at 2. -/
def bufC6 : OwningMemoryBuffer :=
  { dataPtr := DataPtr.vecPtr, size := 2, offset := 2, vec := [4, 5, 6, 7, 0, 0],
    owns_data := true, preallocated := false }

/-- A read-only view over three bytes. -/
def srcC6 : BufferBase := ConstBuffer.mk_raw (some [9, 9, 9]) 3

/-- A buffer wrapping externally owned memory (does not own its data). -/
def nonownC6 : OwningMemoryBuffer := OwningMemoryBuffer.from_external (some [1, 2]) 2

/-- A preallocated buffer over a 4-byte external region. -/
def pbC8 : PreallocatedBuffer := PreallocatedBuffer.mk_raw [0, 0, 0, 0] 4

/-- A base buffer of size 4 with cursor at 1. -/
def baseC4 : BufferBase := { dataBytes := some [1, 2, 3, 4], size := 4, offset := 1 }

/-- A base buffer of size 3 with cursor at 1. -/
def baseC9 : BufferBase := { dataBytes := some [1, 2, 3], size := 3, offset := 1 }

/-- A non-owning buffer with non-null external data, nonzero size and offset. -/
def nonownC10 : OwningMemoryBuffer :=
  { dataPtr := DataPtr.external [5, 6, 7], size := 3, offset := 2, vec := [],
    owns_data := false, preallocated := false }

/-! ### Arithmetic and list helper lemmas -/

/-- Wrapping subtraction agrees with `Nat` subtraction when `b ≤ a < 2^64`. -/
theorem usub_of_le (a b : Nat) (hba : b ≤ a) (ha : a < w64) : usub a b = a - b := by
  have h1 : w64 + a - b = w64 + (a - b) := by omega
  rw [usub, h1, Nat.add_mod_left, Nat.mod_eq_of_lt (by omega)]

/-- An in-bounds `memcpy` source extract has exactly the requested length. -/
theorem bytesAt_length (d : Option (List Nat)) (o n : Nat)
    (h : o + n ≤ (d.getD []).length) : (bytesAt d o n).length = n := by
  simp [bytesAt]
  omega

/-- An in-bounds `memcpy` into a region preserves the region's length. -/
theorem writeBytes_length (v src : List Nat) (off n : Nat)
    (h1 : off + n ≤ v.length) (h2 : n ≤ src.length) :
    (writeBytes v src off n).length = v.length := by
  simp [writeBytes]
  omega

/-- Cursor read, success case (needs `offset ≤ size < 2^64`). -/
theorem read_of_le (b : BufferBase) (n : Nat) (hinv : b.offset ≤ b.size)
    (hsz : b.size < w64) (h : n ≤ b.size - b.offset) :
    b.read n =
      (Status.Ok, bytesAt b.dataBytes b.offset n, { b with offset := b.offset + n }) := by
  rw [BufferBase.read, usub_of_le _ _ hinv hsz, if_neg (by omega),
      Nat.mod_eq_of_lt (by omega)]

/-- Cursor read, overflow case (needs `offset ≤ size < 2^64`). -/
theorem read_of_gt (b : BufferBase) (n : Nat) (hinv : b.offset ≤ b.size)
    (hsz : b.size < w64) (h : b.size - b.offset < n) :
    b.read n = (Status.BufferError msgReadOverflow, [], b) := by
  rw [BufferBase.read, usub_of_le _ _ hinv hsz, if_pos h]

/-- The fuelled doubling loop computes `c` doubled until it reaches `n`,
whenever the fuel bounds the number of doublings needed. -/
theorem doubleUntilAux_spec (fuel : Nat) : ∀ c n : Nat, 0 < c → n ≤ c * 2 ^ fuel →
    ∃ k, doubleUntilAux fuel c n = c * 2 ^ k ∧ n ≤ c * 2 ^ k ∧
      ∀ j, j < k → c * 2 ^ j < n := by
  induction fuel with
  | zero =>
    intro c n hc hf
    exact ⟨0, by simp [doubleUntilAux], by simpa using hf, by omega⟩
  | succ fuel ih =>
    intro c n hc hf
    by_cases h : c < n
    · have hf2 : n ≤ c * 2 * 2 ^ fuel := by
        calc n ≤ c * 2 ^ (fuel + 1) := hf
        _ = c * 2 * 2 ^ fuel := by ring
      obtain ⟨k, hk1, hk2, hk3⟩ := ih (c * 2) n (by omega) hf2
      refine ⟨k + 1, ?_, ?_, ?_⟩
      · rw [doubleUntilAux, if_pos ⟨hc, h⟩, hk1]; ring
      · calc n ≤ c * 2 * 2 ^ k := hk2
        _ = c * 2 ^ (k + 1) := by ring
      · intro j hj
        cases j with
        | zero => simpa using h
        | succ j =>
          have hlt := hk3 j (by omega)
          calc c * 2 ^ (j + 1) = c * 2 * 2 ^ j := by ring
          _ < n := hlt
    · refine ⟨0, ?_, by simpa using Nat.le_of_not_lt h, by omega⟩
      rw [doubleUntilAux, if_neg (fun hcon => h hcon.2)]
      simp

/-- The doubling loop with fuel `n`: from any positive start it returns the
start doubled just until it reaches `n`. -/
theorem doubleUntil_spec (c n : Nat) (hc : 0 < c) :
    ∃ k, doubleUntil c n = c * 2 ^ k ∧ n ≤ c * 2 ^ k ∧ ∀ j, j < k → c * 2 ^ j < n :=
  doubleUntilAux_spec n c n hc
    (le_trans (Nat.le_of_lt (Nat.lt_two_pow n)) (Nat.le_mul_of_pos_left _ hc))

/-- Started exactly at the target, the loop does not run. -/
theorem doubleUntil_self (n : Nat) : doubleUntil n n = n := by
  cases n with
  | zero => rfl
  | succ m =>
    rw [doubleUntil, doubleUntilAux, if_neg (fun hcon => absurd hcon.2 (lt_irrefl _))]

/-- Growing `resize` yields the requested length. -/
theorem resizeVec_length (v : List Nat) (n : Nat) (h : v.length ≤ n) :
    (resizeVec v n).length = n := by
  simp [resizeVec]
  omega

/-- Growing `resize` preserves the existing content as a prefix. -/
theorem resizeVec_take (v : List Nat) (n : Nat) (h : v.length ≤ n) :
    (resizeVec v n).take v.length = v := by
  rw [resizeVec, List.take_of_length_le h, List.take_left]

/-- `ensure_alloced_size` with sufficient capacity is a complete no-op
(any buffer, preallocated or not). -/
theorem ensure_of_le (b : OwningMemoryBuffer) (n : Nat) (h : n ≤ b.alloced_size) :
    b.ensure_alloced_size n = Except.ok (Status.Ok, b) := by
  rw [OwningMemoryBuffer.ensure_alloced_size,
      if_neg (fun hcon => absurd hcon.2 (by omega)), if_pos (Or.inr h)]

/-- `ensure_alloced_size` on a preallocated buffer that would have to grow
throws. -/
theorem ensure_of_prealloc_gt (b : OwningMemoryBuffer) (n : Nat)
    (hpre : b.preallocated = true) (h : b.alloced_size < n) :
    b.ensure_alloced_size n = Except.error msgPreallocFixed := by
  rw [OwningMemoryBuffer.ensure_alloced_size, if_pos ⟨hpre, h⟩]

/-- `ensure_alloced_size` on a growable buffer needing growth defers to
`realloc` at the doubled capacity. -/
theorem ensure_of_grow (b : OwningMemoryBuffer) (n : Nat)
    (hpre : b.preallocated = false) (h : b.alloced_size < n) :
    b.ensure_alloced_size n =
      Except.ok (b.realloc (doubleUntil (if b.alloced_size = 0 then n else b.alloced_size) n)) := by
  rw [OwningMemoryBuffer.ensure_alloced_size, if_neg (by simp [hpre]),
      if_neg (by simp [hpre]; omega)]

/-- `realloc` on an owning buffer that must grow. -/
theorem realloc_of_grow (b : OwningMemoryBuffer) (m : Nat)
    (hown : b.owns_data = true) (h : b.alloced_size < m) :
    b.realloc m =
      (Status.Ok, { b with vec := resizeVec b.vec m, dataPtr := DataPtr.vecPtr }) := by
  rw [OwningMemoryBuffer.realloc, if_neg (by simp [hown]), if_pos h]

/-- `realloc` never touches `size_`, `offset_` or the flags. -/
theorem realloc_fields (b : OwningMemoryBuffer) (m : Nat) :
    (b.realloc m).2.offset = b.offset ∧ (b.realloc m).2.size = b.size ∧
    (b.realloc m).2.owns_data = b.owns_data ∧
    (b.realloc m).2.preallocated = b.preallocated := by
  rw [OwningMemoryBuffer.realloc]
  split
  · exact ⟨rfl, rfl, rfl, rfl⟩
  · split
    · exact ⟨rfl, rfl, rfl, rfl⟩
    · exact ⟨rfl, rfl, rfl, rfl⟩

/-- `ensure_alloced_size` never touches `size_`, `offset_` or the flags. -/
theorem ensure_fields (b : OwningMemoryBuffer) (n : Nat) (st : Status)
    (b' : OwningMemoryBuffer) (h : b.ensure_alloced_size n = Except.ok (st, b')) :
    b'.offset = b.offset ∧ b'.size = b.size ∧ b'.owns_data = b.owns_data ∧
    b'.preallocated = b.preallocated := by
  by_cases h1 : b.preallocated = true ∧ b.alloced_size < n
  · rw [ensure_of_prealloc_gt b n h1.1 h1.2] at h
    exact absurd h (by simp)
  · by_cases h2 : n ≤ b.alloced_size
    · rw [ensure_of_le b n h2] at h
      have hb : b' = b := by
        have h' := (Except.ok.injEq _ _).mp h
        exact (congrArg Prod.snd h').symm
      rw [hb]
      exact ⟨rfl, rfl, rfl, rfl⟩
    · have hpre : b.preallocated = false := by
        cases hp : b.preallocated
        · rfl
        · exact absurd ⟨hp, by omega⟩ h1
      rw [ensure_of_grow b n hpre (by omega)] at h
      have hb : b' = (b.realloc (doubleUntil (if b.alloced_size = 0 then n else b.alloced_size) n)).2 := by
        have h' := (Except.ok.injEq _ _).mp h
        exact (congrArg Prod.snd h').symm
      obtain ⟨ho, hs, how, hp⟩ := realloc_fields b (doubleUntil (if b.alloced_size = 0 then n else b.alloced_size) n)
      rw [hb]
      exact ⟨ho, hs, how, hp⟩

/-! ### Claim theorems -/

/-- C1 (code evaluated at the failing input): for every `n > 0`, the
preallocated-mode constructor `OwningMemoryBuffer(n, alloc)` throws the
`BufferStatusException` instead of constructing a buffer, because the member
initialiser list sets `preallocated_ = true` before the body calls
`ensure_alloced_size(size_)` against the still-empty allocation. -/
theorem c1_prealloc_ctor_throws (n : Nat) (h : 0 < n) :
    OwningMemoryBuffer.mk_prealloc n = Except.error msgPreallocFixed := by
  simp only [OwningMemoryBuffer.mk_prealloc]
  rw [ensure_of_prealloc_gt _ _ rfl (by simpa [OwningMemoryBuffer.alloced_size] using h)]

/-- C1 witness: constructing a buffer preallocated to one byte throws. -/
theorem c1_witness : OwningMemoryBuffer.mk_prealloc 1 = Except.error msgPreallocFixed :=
  c1_prealloc_ctor_throws 1 (by decide)

/-- C3 counterexample: on a view of size 5, the positional read at explicit
offset 6 with length 0 returns OK even though `6 + 0 > size()`: the bounds
check `nbytes > size_ - offset` wraps in `uint64_t` when the explicit offset
exceeds the size, so the claimed failure does not occur. -/
theorem c3_counterexample :
    ((ConstBuffer.mk_raw (some [10, 11, 12, 13, 14]) 5).read_at 6 0).1 = Status.Ok ∧
    (ConstBuffer.mk_raw (some [10, 11, 12, 13, 14]) 5).size < 6 + 0 := by decide

/-- C3 (amended): for an explicit offset `o ≤ size()`, the positional read
fails with the recoverable buffer-overflow error exactly when `o + n > size()`,
and on success copies the `n` bytes starting at `o` while leaving the whole
buffer (in particular the cursor) unchanged; for `o > size()` the wrapped
`uint64_t` bounds check may let the read pass instead of failing. -/
theorem c3_read_at (b : BufferBase) (o n : Nat) (ho : o ≤ b.size) (hsz : b.size < w64) :
    (((b.read_at o n).1 = Status.Ok) ↔ o + n ≤ b.size) ∧
    (o + n ≤ b.size → b.read_at o n = (Status.Ok, bytesAt b.dataBytes o n, b)) ∧
    (b.size < o + n → b.read_at o n = (Status.BufferError msgReadOverflow, [], b)) ∧
    (o + n ≤ b.size → b.size ≤ (b.dataBytes.getD []).length →
      ((b.read_at o n).2.1).length = n) := by
  have hu : usub b.size o = b.size - o := usub_of_le _ _ ho hsz
  by_cases hc : o + n ≤ b.size
  · have heq : b.read_at o n = (Status.Ok, bytesAt b.dataBytes o n, b) := by
      rw [BufferBase.read_at, hu, if_neg (by omega)]
    refine ⟨by rw [heq]; exact ⟨fun _ => hc, fun _ => rfl⟩,
            fun _ => heq, fun hgt => absurd hc (by omega), fun _ hreg => ?_⟩
    rw [heq]
    exact bytesAt_length b.dataBytes o n (by omega)
  · have heq : b.read_at o n = (Status.BufferError msgReadOverflow, [], b) := by
      rw [BufferBase.read_at, hu, if_pos (by omega)]
    exact ⟨by rw [heq]; exact ⟨fun habs => by simp at habs, fun hle => absurd hle hc⟩,
           fun hle => absurd hle hc, fun _ => heq, fun hle _ => absurd hle hc⟩

/-- C3 witness: on a 4-byte view, the positional read of 2 bytes at offset 1
succeeds without moving the cursor, and reading 4 bytes at offset 1 fails. -/
theorem c3_witness :
    (ConstBuffer.mk_raw (some [1, 2, 3, 4]) 4).read_at 1 2 =
      (Status.Ok, bytesAt (some [1, 2, 3, 4]) 1 2, ConstBuffer.mk_raw (some [1, 2, 3, 4]) 4) ∧
    (ConstBuffer.mk_raw (some [1, 2, 3, 4]) 4).read_at 1 4 =
      (Status.BufferError msgReadOverflow, [], ConstBuffer.mk_raw (some [1, 2, 3, 4]) 4) := by
  have h1 := c3_read_at (ConstBuffer.mk_raw (some [1, 2, 3, 4]) 4) 1 2 (by decide) (by decide)
  have h2 := c3_read_at (ConstBuffer.mk_raw (some [1, 2, 3, 4]) 4) 1 4 (by decide) (by decide)
  exact ⟨h1.2.1 (by decide), h2.2.2.1 (by decide)⟩

/-- C4: the cursor read fails with the recoverable buffer-overflow error
exactly when `n > size() - offset()`; on failure the buffer is unchanged and
nothing is copied, and on success it copies the `n` bytes at the cursor and
advances the cursor by `n`. -/
theorem c4_read (b : BufferBase) (n : Nat) (hinv : b.offset ≤ b.size) (hsz : b.size < w64) :
    (((b.read n).1 = Status.Ok) ↔ n ≤ b.size - b.offset) ∧
    (b.size - b.offset < n → b.read n = (Status.BufferError msgReadOverflow, [], b)) ∧
    (n ≤ b.size - b.offset →
      b.read n = (Status.Ok, bytesAt b.dataBytes b.offset n,
        { b with offset := b.offset + n })) ∧
    (n ≤ b.size - b.offset → b.size ≤ (b.dataBytes.getD []).length →
      ((b.read n).2.1).length = n) := by
  by_cases hc : n ≤ b.size - b.offset
  · have heq := read_of_le b n hinv hsz hc
    refine ⟨by rw [heq]; exact ⟨fun _ => hc, fun _ => rfl⟩,
            fun hgt => absurd hc (by omega), fun _ => heq, fun _ hreg => ?_⟩
    rw [heq]
    exact bytesAt_length b.dataBytes b.offset n (by omega)
  · have heq := read_of_gt b n hinv hsz (by omega)
    exact ⟨by rw [heq]; exact ⟨fun habs => by simp at habs, fun hle => absurd hle hc⟩,
           fun _ => heq, fun hle => absurd hle hc, fun hle _ => absurd hle hc⟩

/-- C4 witness: on a 4-byte buffer with cursor at 1, reading 2 bytes succeeds
and advances the cursor, and reading 4 bytes fails leaving it unchanged. -/
theorem c4_witness :
    baseC4.read 2 = (Status.Ok, bytesAt baseC4.dataBytes baseC4.offset 2,
      { baseC4 with offset := baseC4.offset + 2 }) ∧
    baseC4.read 4 = (Status.BufferError msgReadOverflow, [], baseC4) := by
  have h1 := c4_read baseC4 2 (by decide) (by decide)
  have h2 := c4_read baseC4 4 (by decide) (by decide)
  exact ⟨h1.2.2.1 (by decide), h2.2.1 (by decide)⟩

/-- C7 counterexample: move-assigning an owning buffer (the default-constructed
empty buffer) into a destination that wraps three external bytes leaves the
moved-from source with `size() = 3 ≠ 0`, because `operator=(&&)` is implemented
as `swap` — the source receives the destination's previous state rather than
being emptied. -/
theorem c7_counterexample :
    OwningMemoryBuffer.mk_empty.owns_data = true ∧
    ((OwningMemoryBuffer.move_assign
        (OwningMemoryBuffer.from_external (some [1, 2, 3]) 3)
        OwningMemoryBuffer.mk_empty).2).size ≠ 0 := by decide

/-- C7 (amended): after move construction the destination holds the source's
entire original state and the moved-from source is left empty and reusable
(`size = 0`, null data, `offset = 0`, flags untouched); move assignment instead
exchanges the two states (`swap` semantics), so its moved-from source ends with
the destination's previous state and is empty only if the destination was. -/
theorem c7_move (b : OwningMemoryBuffer) :
    (b.move_ctor).1 = b ∧
    (b.move_ctor).2.size = 0 ∧ (b.move_ctor).2.dataPtr = DataPtr.null ∧
    (b.move_ctor).2.offset = 0 ∧ (b.move_ctor).2.vec = [] ∧
    (b.move_ctor).2.owns_data = b.owns_data ∧
    (b.move_ctor).2.preallocated = b.preallocated ∧
    (∀ d s : OwningMemoryBuffer, OwningMemoryBuffer.move_assign d s = (s, d)) := by
  cases b
  exact ⟨rfl, rfl, rfl, rfl, rfl, rfl, rfl, fun d s => rfl⟩

/-- C8: a preallocated buffer's raw write succeeds exactly when the request
fits in `size - offset`, copying at the cursor and advancing it; and in the
concrete 16-byte scenario two writes of 10 and 6 bytes succeed leaving
`free_space() = 0`, after which a 1-byte write fails with the distinct
preallocated-buffer error kind and changes nothing. -/
theorem c8_pb_write :
    (∀ (b : PreallocatedBuffer) (src : List Nat) (n : Nat),
      b.offset ≤ b.size → b.size < w64 → b.size = b.data.length →
      (((b.write src n).1 = Status.Ok) ↔ n ≤ b.data.length - b.offset) ∧
      (n ≤ b.data.length - b.offset →
        b.write src n = (Status.Ok, { b with data := writeBytes b.data src b.offset n,
                                             offset := b.offset + n })) ∧
      (b.data.length - b.offset < n →
        b.write src n = (Status.PreallocatedBufferError msgPreallocWrite, b))) ∧
    (let b0 := PreallocatedBuffer.mk_raw (List.replicate 16 0) 16
     let r1 := b0.write (List.replicate 10 1) 10
     let r2 := r1.2.write (List.replicate 6 2) 6
     let r3 := r2.2.write [3] 1
     r1.1 = Status.Ok ∧ r2.1 = Status.Ok ∧ r2.2.free_space = 0 ∧
     r3.1 = Status.PreallocatedBufferError msgPreallocWrite ∧ r3.2 = r2.2) := by
  constructor
  · intro b src n hinv hsz hL
    have hu : usub b.size b.offset = b.size - b.offset := usub_of_le _ _ hinv hsz
    by_cases hc : n ≤ b.data.length - b.offset
    · have heq : b.write src n =
          (Status.Ok, { b with data := writeBytes b.data src b.offset n,
                               offset := b.offset + n }) := by
        rw [PreallocatedBuffer.write, hu, if_neg (by omega), Nat.mod_eq_of_lt (by omega)]
      exact ⟨by rw [heq]; exact ⟨fun _ => hc, fun _ => rfl⟩,
             fun _ => heq, fun hgt => absurd hc (by omega)⟩
    · have heq : b.write src n = (Status.PreallocatedBufferError msgPreallocWrite, b) := by
        rw [PreallocatedBuffer.write, hu, if_pos (by omega)]
      exact ⟨by rw [heq]; exact ⟨fun habs => by simp at habs, fun hle => absurd hle hc⟩,
             fun hle => absurd hle hc, fun _ => heq⟩
  · decide

/-- C8 witness: on a 4-byte preallocated buffer, a 2-byte write succeeds and a
5-byte write fails with the preallocated-buffer error kind. -/
theorem c8_witness :
    pbC8.write [7, 7] 2 =
      (Status.Ok, { pbC8 with data := writeBytes pbC8.data [7, 7] pbC8.offset 2,
                              offset := pbC8.offset + 2 }) ∧
    pbC8.write [7, 7, 7, 7, 7] 5 = (Status.PreallocatedBufferError msgPreallocWrite, pbC8) := by
  have h1 := c8_pb_write.1 pbC8 [7, 7] 2 (by decide) (by decide) (by decide)
  have h2 := c8_pb_write.1 pbC8 [7, 7, 7, 7, 7] 5 (by decide) (by decide) (by decide)
  exact ⟨h1.2.1 (by decide), h2.2.2 (by decide)⟩

/-- C9: for every buffer satisfying the cursor invariant, `advance_offset(n)`
sets the offset to `min(offset + n, size)` over mathematical integers (the wrap
cannot trigger because the saturation guard fires first), never decreases the
offset, never exceeds the size, and is total — it changes no other field and
returns no error. -/
theorem c9_advance_offset (b : BufferBase) (n : Nat) (hinv : b.offset ≤ b.size)
    (hsz : b.size < w64) :
    (b.advance_offset n).offset = min (b.offset + n) b.size ∧
    b.offset ≤ (b.advance_offset n).offset ∧
    (b.advance_offset n).offset ≤ b.size ∧
    (b.advance_offset n).size = b.size ∧
    (b.advance_offset n).dataBytes = b.dataBytes := by
  rw [BufferBase.advance_offset, usub_of_le _ _ hinv hsz]
  by_cases hc : b.size - b.offset ≤ n
  · rw [if_pos hc]
    refine ⟨?_, ?_, ?_, rfl, rfl⟩
    · show b.size = min (b.offset + n) b.size
      omega
    · exact hinv
    · exact le_refl b.size
  · rw [if_neg hc]
    have hm : (b.offset + n) % w64 = b.offset + n := Nat.mod_eq_of_lt (by omega)
    refine ⟨?_, ?_, ?_, rfl, rfl⟩
    · show (b.offset + n) % w64 = min (b.offset + n) b.size
      rw [hm]; omega
    · show b.offset ≤ (b.offset + n) % w64
      rw [hm]; omega
    · show (b.offset + n) % w64 ≤ b.size
      rw [hm]; omega

/-- C9 witness: advancing a size-3 buffer's cursor from 1 by 5 saturates at 3. -/
theorem c9_witness :
    (baseC9.advance_offset 5).offset = min (baseC9.offset + 5) baseC9.size :=
  (c9_advance_offset baseC9 5 (by decide) (by decide)).1

/-- C10: copy-constructing an owning growable buffer from a source that does
not own its data (for either copy constructor) yields a copy with null data
and size 0 regardless of the source's data pointer and size, while the
source's offset, ownership flag, preallocation flag and vector are copied. -/
theorem c10_copy_nonowning (b : OwningMemoryBuffer) (h : b.owns_data = false) :
    (b.copy_ctor).dataPtr = DataPtr.null ∧ (b.copy_ctor).size = 0 ∧
    (b.copy_ctor).offset = b.offset ∧ (b.copy_ctor).owns_data = b.owns_data ∧
    (b.copy_ctor).preallocated = b.preallocated ∧ (b.copy_ctor).vec = b.vec ∧
    b.copy_ctor_alloc = b.copy_ctor := by
  have hcond : ¬ (b.owns_data = true ∧ b.dataPtr ≠ DataPtr.null) := by
    intro hcon
    rw [h] at hcon
    exact absurd hcon.1 (by simp)
  simp [OwningMemoryBuffer.copy_ctor, OwningMemoryBuffer.copy_ctor_alloc, if_neg hcond]

/-- C10 witness: copying a non-owning buffer with external data `[5,6,7]`,
size 3 and offset 2 gives null data, size 0, and the same offset 2. -/
theorem c10_witness :
    (nonownC10.copy_ctor).dataPtr = DataPtr.null ∧ (nonownC10.copy_ctor).size = 0 ∧
    (nonownC10.copy_ctor).offset = nonownC10.offset := by
  have h := c10_copy_nonowning nonownC10 rfl
  exact ⟨h.1, h.2.1, h.2.2.1⟩

/-- Exhaustive description of the cursor read under the invariant. -/
theorem read_cases (b : BufferBase) (n : Nat) (hinv : b.offset ≤ b.size)
    (hsz : b.size < w64) :
    (b.size - b.offset < n ∧ b.read n = (Status.BufferError msgReadOverflow, [], b)) ∨
    (n ≤ b.size - b.offset ∧
      b.read n = (Status.Ok, bytesAt b.dataBytes b.offset n,
        { b with offset := b.offset + n })) := by
  by_cases hc : n ≤ b.size - b.offset
  · exact Or.inr ⟨hc, read_of_le b n hinv hsz hc⟩
  · exact Or.inl ⟨by omega, read_of_gt b n hinv hsz (by omega)⟩

/-- `realloc` on an owning buffer always reports OK. -/
theorem realloc_fst (b : OwningMemoryBuffer) (m : Nat) (hown : b.owns_data = true) :
    (b.realloc m).1 = Status.Ok := by
  rw [OwningMemoryBuffer.realloc, if_neg (by simp [hown])]
  split
  · rfl
  · rfl

/-- On an owning buffer, `ensure_alloced_size` never returns a non-OK status
(it either succeeds or throws). -/
theorem ensure_status_ok (b : OwningMemoryBuffer) (n : Nat) (st : Status)
    (b' : OwningMemoryBuffer) (hown : b.owns_data = true)
    (h : b.ensure_alloced_size n = Except.ok (st, b')) : st = Status.Ok := by
  by_cases h1 : b.preallocated = true ∧ b.alloced_size < n
  · rw [ensure_of_prealloc_gt b n h1.1 h1.2] at h
    exact absurd h (by simp)
  · by_cases h2 : n ≤ b.alloced_size
    · rw [ensure_of_le b n h2] at h
      have hb := Except.ok.inj h
      exact (congrArg Prod.fst hb).symm
    · have hpre : b.preallocated = false := by
        cases hp : b.preallocated
        · rfl
        · exact absurd ⟨hp, by omega⟩ h1
      rw [ensure_of_grow b n hpre (by omega)] at h
      have hfst : (b.realloc (doubleUntil (if b.alloced_size = 0 then n else b.alloced_size) n)).1 = st :=
        congrArg Prod.fst (Except.ok.inj h)
      rw [realloc_fst b _ hown] at hfst
      exact hfst.symm

/-- `write(raw)` on a non-owning buffer: recoverable error, nothing changes. -/
theorem write_raw_not_owning (b : OwningMemoryBuffer) (src : List Nat) (n : Nat)
    (h : b.owns_data = false) :
    b.write_raw src n = Except.ok (Status.BufferError msgCannotWrite, b) := by
  rw [OwningMemoryBuffer.write_raw, if_pos h]

/-- `write(raw)` propagates a throwing `ensure_alloced_size`. -/
theorem write_raw_of_ensure_error (b : OwningMemoryBuffer) (src : List Nat) (n : Nat)
    (e : String) (hown : ¬ (b.owns_data = false))
    (hE : b.ensure_alloced_size ((b.offset + n) % w64) = Except.error e) :
    b.write_raw src n = Except.error e := by
  rw [OwningMemoryBuffer.write_raw, if_neg hown, hE]

/-- `write(raw)` after a successful `ensure_alloced_size`: copy at the cursor,
advance, `size = max(offset, size)`. -/
theorem write_raw_of_ensure (b : OwningMemoryBuffer) (src : List Nat) (n : Nat)
    (b1 : OwningMemoryBuffer) (hown : ¬ (b.owns_data = false))
    (hE : b.ensure_alloced_size ((b.offset + n) % w64) = Except.ok (Status.Ok, b1)) :
    b.write_raw src n = Except.ok (Status.Ok,
      { b1 with vec := writeBytes b1.vec src b1.offset n,
                offset := (b1.offset + n) % w64,
                size := max ((b1.offset + n) % w64) b1.size }) := by
  rw [OwningMemoryBuffer.write_raw, if_neg hown, hE]
  rfl

/-- Positional `write(raw, at)` on a non-owning buffer. -/
theorem write_raw_at_not_owning (b : OwningMemoryBuffer) (src : List Nat) (o n : Nat)
    (h : b.owns_data = false) :
    b.write_raw_at src o n = Except.ok (Status.BufferError msgCannotWrite, b) := by
  rw [OwningMemoryBuffer.write_raw_at, if_pos h]

/-- Positional `write(raw, at)` propagates a throwing `ensure_alloced_size`. -/
theorem write_raw_at_of_ensure_error (b : OwningMemoryBuffer) (src : List Nat) (o n : Nat)
    (e : String) (hown : ¬ (b.owns_data = false))
    (hE : b.ensure_alloced_size ((o + n) % w64) = Except.error e) :
    b.write_raw_at src o n = Except.error e := by
  rw [OwningMemoryBuffer.write_raw_at, if_neg hown, hE]

/-- Positional `write(raw, at)` after a successful `ensure_alloced_size`. -/
theorem write_raw_at_of_ensure (b : OwningMemoryBuffer) (src : List Nat) (o n : Nat)
    (b1 : OwningMemoryBuffer) (hown : ¬ (b.owns_data = false))
    (hE : b.ensure_alloced_size ((o + n) % w64) = Except.ok (Status.Ok, b1)) :
    b.write_raw_at src o n = Except.ok (Status.Ok,
      { b1 with vec := writeBytes b1.vec src o n,
                size := max ((o + n) % w64) b1.size }) := by
  rw [OwningMemoryBuffer.write_raw_at, if_neg hown, hE]
  rfl

/-- The no-length view write on an owning buffer, in closed form (under the
well-formedness bounds): it copies `min(capacity - offset, source bytes left)`
bytes at both cursors and advances both. -/
theorem write_cbuf_eq (b : OwningMemoryBuffer) (s : BufferBase)
    (hown : ¬ (b.owns_data = false)) (hoff : b.offset ≤ b.alloced_size)
    (halloc : b.alloced_size < w64) (hsinv : s.offset ≤ s.size) (hssz : s.size < w64) :
    b.write_cbuf s =
      (Status.Ok,
       { b with vec := writeBytes b.vec (bytesAt s.dataBytes s.offset (min (b.alloced_size - b.offset) (s.size - s.offset))) b.offset (min (b.alloced_size - b.offset) (s.size - s.offset)),
                offset := b.offset + min (b.alloced_size - b.offset) (s.size - s.offset),
                size := max (b.offset + min (b.alloced_size - b.offset) (s.size - s.offset)) b.size },
       { s with offset := s.offset + min (b.alloced_size - b.offset) (s.size - s.offset) }) := by
  have hmod1 : (b.offset + min (b.alloced_size - b.offset) (s.size - s.offset)) % w64
      = b.offset + min (b.alloced_size - b.offset) (s.size - s.offset) :=
    Nat.mod_eq_of_lt (by omega)
  have hmod2 : (s.offset + min (b.alloced_size - b.offset) (s.size - s.offset)) % w64
      = s.offset + min (b.alloced_size - b.offset) (s.size - s.offset) :=
    Nat.mod_eq_of_lt (by omega)
  rw [OwningMemoryBuffer.write_cbuf, if_neg hown]
  simp only [ConstBuffer.nbytes_left_to_read,
    usub_of_le b.alloced_size b.offset hoff halloc,
    usub_of_le s.size s.offset hsinv hssz,
    read_of_le s (min (b.alloced_size - b.offset) (s.size - s.offset)) hsinv hssz
      (min_le_right _ _)]
  simp [hmod1, hmod2]

/-- Sized view write on a non-owning buffer. -/
theorem write_cbuf_n_not_owning (b : OwningMemoryBuffer) (s : BufferBase) (n : Nat)
    (h : b.owns_data = false) :
    b.write_cbuf_n s n = Except.ok (Status.BufferError msgCannotWrite, b, s) := by
  rw [OwningMemoryBuffer.write_cbuf_n, if_pos h]

/-- Sized view write propagates a throwing `ensure_alloced_size`. -/
theorem write_cbuf_n_of_ensure_error (b : OwningMemoryBuffer) (s : BufferBase) (n : Nat)
    (e : String) (hown : ¬ (b.owns_data = false))
    (hE : b.ensure_alloced_size ((b.offset + n) % w64) = Except.error e) :
    b.write_cbuf_n s n = Except.error e := by
  rw [OwningMemoryBuffer.write_cbuf_n, if_neg hown, hE]

/-- Sized view write after successful growth, for a given outcome of the inner
view read: it forwards a read error (leaving the grown destination), or else
copies and advances. -/
theorem write_cbuf_n_of_read (b : OwningMemoryBuffer) (s : BufferBase) (n : Nat)
    (b1 : OwningMemoryBuffer) (rst : Status) (rbytes : List Nat) (s2 : BufferBase)
    (hown : ¬ (b.owns_data = false))
    (hE : b.ensure_alloced_size ((b.offset + n) % w64) = Except.ok (Status.Ok, b1))
    (hR : s.read n = (rst, rbytes, s2)) :
    b.write_cbuf_n s n =
      (if rst ≠ Status.Ok then Except.ok (rst, b1, s2)
       else Except.ok (Status.Ok,
         { b1 with vec := writeBytes b1.vec rbytes b1.offset n,
                   offset := (b1.offset + n) % w64,
                   size := max ((b1.offset + n) % w64) b1.size }, s2)) := by
  rw [OwningMemoryBuffer.write_cbuf_n, if_neg hown, hE, hR]
  rfl

/-- C5: on an owning, non-preallocated buffer, `ensure_alloced_size(n)` with
`n ≤ alloced_size()` changes nothing at all (in particular neither capacity,
data address nor size); with `n > alloced_size()` the new capacity is `n` when
the old capacity was 0 and otherwise the old capacity doubled just until it
reaches `n`, with the old content preserved as a prefix and `size`/`offset`
untouched.  The bound `n ≤ 2^63` keeps the `uint64_t` doubling of the source
below `2^64`, where it coincides with the `Nat` doubling of the model. -/
theorem c5_ensure_alloced_size (b : OwningMemoryBuffer) (n : Nat)
    (hown : b.owns_data = true) (hpre : b.preallocated = false) :
    (n ≤ b.alloced_size → b.ensure_alloced_size n = Except.ok (Status.Ok, b)) ∧
    (b.alloced_size < n → n ≤ 2 ^ 63 →
      ∃ b', b.ensure_alloced_size n = Except.ok (Status.Ok, b') ∧
        n ≤ b'.alloced_size ∧
        (b.alloced_size = 0 → b'.alloced_size = n) ∧
        (0 < b.alloced_size → ∃ k, b'.alloced_size = b.alloced_size * 2 ^ k ∧
          ∀ j, j < k → b.alloced_size * 2 ^ j < n) ∧
        b'.vec.take b.vec.length = b.vec ∧
        b'.size = b.size ∧ b'.offset = b.offset ∧
        b'.owns_data = true ∧ b'.preallocated = false) := by
  constructor
  · intro h
    exact ensure_of_le b n h
  · intro hlt _hbound
    rw [ensure_of_grow b n hpre hlt]
    by_cases hz : b.alloced_size = 0
    · rw [if_pos hz, doubleUntil_self n, realloc_of_grow b n hown (by omega)]
      have hvl : b.vec.length = 0 := hz
      have hlen : (resizeVec b.vec n).length = n := resizeVec_length _ _ (by omega)
      have hnil : b.vec = [] := List.eq_nil_of_length_eq_zero hvl
      refine ⟨_, rfl, ?_, ?_, ?_, ?_, rfl, rfl, hown, hpre⟩
      · show n ≤ (resizeVec b.vec n).length
        omega
      · intro _
        exact hlen
      · intro hpos
        exact absurd hz (by omega)
      · show (resizeVec b.vec n).take b.vec.length = b.vec
        rw [hvl, hnil]
        rfl
    · rw [if_neg hz]
      obtain ⟨k, hk1, hk2, hk3⟩ := doubleUntil_spec b.alloced_size n (by omega)
      have hnM : n ≤ doubleUntil b.alloced_size n := hk1 ▸ hk2
      have hgt : b.alloced_size < doubleUntil b.alloced_size n := by omega
      rw [realloc_of_grow b _ hown hgt]
      have hlenle : b.vec.length ≤ doubleUntil b.alloced_size n := by
        have hva : b.alloced_size = b.vec.length := rfl
        omega
      have hlen : (resizeVec b.vec (doubleUntil b.alloced_size n)).length =
          doubleUntil b.alloced_size n := resizeVec_length _ _ hlenle
      refine ⟨_, rfl, ?_, ?_, ?_, ?_, rfl, rfl, hown, hpre⟩
      · show n ≤ (resizeVec b.vec (doubleUntil b.alloced_size n)).length
        omega
      · intro h0
        exact absurd h0 hz
      · intro _
        refine ⟨k, ?_, hk3⟩
        show (resizeVec b.vec (doubleUntil b.alloced_size n)).length = b.alloced_size * 2 ^ k
        rw [hlen, hk1]
      · show (resizeVec b.vec (doubleUntil b.alloced_size n)).take b.vec.length = b.vec
        exact resizeVec_take _ _ hlenle

/-- C5 witness: on an owning buffer with capacity 4, `ensure_alloced_size 3`
is a no-op and `ensure_alloced_size 9` grows to a sufficient capacity. -/
theorem c5_witness :
    bufC5.ensure_alloced_size 3 = Except.ok (Status.Ok, bufC5) ∧
    (∃ b', bufC5.ensure_alloced_size 9 = Except.ok (Status.Ok, b') ∧
      9 ≤ b'.alloced_size) := by
  have h1 := c5_ensure_alloced_size bufC5 3 rfl rfl
  have h2 := c5_ensure_alloced_size bufC5 9 rfl rfl
  refine ⟨h1.1 (by decide), ?_⟩
  obtain ⟨b', hb1, hb2, _⟩ := h2.2 (by decide) (by decide)
  exact ⟨b', hb1, hb2⟩

/-- C6: the no-length view write on an owning growable buffer (with the
cursor within capacity and well-formed view) copies exactly
`min(alloced_size() - offset(), nbytes_left_to_read())` bytes from the view's
cursor to the buffer's cursor, advances both cursors by that amount, and never
grows the capacity; on a non-owning buffer it fails with the recoverable
buffer error, copying nothing. -/
theorem c6_write_cbuf (b : OwningMemoryBuffer) (s : BufferBase) (m : Nat)
    (hm : m = min (b.alloced_size - b.offset) (s.size - s.offset)) :
    (b.owns_data = false → b.write_cbuf s = (Status.BufferError msgCannotWrite, b, s)) ∧
    (b.owns_data = true → b.offset ≤ b.alloced_size → b.alloced_size < w64 →
      s.offset ≤ s.size → s.size < w64 → s.size ≤ (s.dataBytes.getD []).length →
      b.write_cbuf s =
        (Status.Ok,
         { b with vec := writeBytes b.vec (bytesAt s.dataBytes s.offset m) b.offset m,
                  offset := b.offset + m,
                  size := max (b.offset + m) b.size },
         { s with offset := s.offset + m }) ∧
      (b.write_cbuf s).2.1.alloced_size = b.alloced_size) := by
  constructor
  · intro hno
    rw [OwningMemoryBuffer.write_cbuf, if_pos hno]
  · intro hown hoff halloc hsoff hssz hreg
    have hw : ¬ (b.owns_data = false) := by rw [hown]; simp
    subst hm
    have heq := write_cbuf_eq b s hw hoff halloc hsoff hssz
    refine ⟨heq, ?_⟩
    rw [heq]
    show (writeBytes b.vec
        (bytesAt s.dataBytes s.offset (min (b.alloced_size - b.offset) (s.size - s.offset)))
        b.offset (min (b.alloced_size - b.offset) (s.size - s.offset))).length = b.vec.length
    have hva : b.alloced_size = b.vec.length := rfl
    apply writeBytes_length
    · omega
    · rw [bytesAt_length s.dataBytes s.offset _ (by omega)]

/-- C6 witness: the view write fails on a non-owning buffer and, on an owning
buffer with capacity 6 and cursor 2 fed from a 3-byte view, copies without
changing the capacity. -/
theorem c6_witness :
    nonownC6.write_cbuf srcC6 = (Status.BufferError msgCannotWrite, nonownC6, srcC6) ∧
    (bufC6.write_cbuf srcC6).2.1.alloced_size = bufC6.alloced_size := by
  have h1 := c6_write_cbuf nonownC6 srcC6 0 (by decide)
  have h2 := c6_write_cbuf bufC6 srcC6 3 (by decide)
  exact ⟨h1.1 rfl,
    (h2.2 rfl (by decide) (by decide) (by decide) (by decide) (by decide)).2⟩

/-- C2 counterexample: a buffer wrapping five external bytes with cursor at 3
satisfies the invariant, yet its copy (an operation on the claim's own list)
has `offset = 3 > 0 = size`: the copy constructor copies `offset_` but takes
over `size_` only when the source owns non-null data. -/
theorem c2_counterexample :
    ∃ b : OwningMemoryBuffer,
      (OwningMemoryBuffer.from_external (some [1, 2, 3, 4, 5]) 5).set_offset 3 =
        Except.ok b ∧
      b.offset ≤ b.size ∧
      ¬ ((b.copy_ctor).offset ≤ (b.copy_ctor).size) := by
  refine ⟨{ dataPtr := DataPtr.external [1, 2, 3, 4, 5], size := 5, offset := 3,
            vec := [], owns_data := false, preallocated := false }, ?_, ?_, ?_⟩
  · rfl
  · decide
  · decide

/-- C2 (amended): the invariant `0 ≤ offset ≤ size`, whenever it holds before,
is preserved by `set_offset`, `advance_offset`, `reset_offset`, both reads,
the preallocated-buffer write, `clear`, `reset_size`, move construction, move
assignment, `swap`, all four owning-buffer writes, `ensure_alloced_size` and
`realloc`, and by copy construction/assignment when the source owns non-null
data; copy construction or copy assignment from a non-owning (or null-data)
source copies the offset while resetting size to 0 and can break it, as can
`set_size`. -/
theorem c2_invariant_preservation :
    (∀ (b : BufferBase) (o : Nat) (b' : BufferBase),
      b.set_offset o = Except.ok b' → b'.offset ≤ b'.size) ∧
    (∀ (b : BufferBase) (n : Nat), b.offset ≤ b.size → b.size < w64 →
      (b.advance_offset n).offset ≤ (b.advance_offset n).size) ∧
    (∀ b : BufferBase, (b.reset_offset).offset ≤ (b.reset_offset).size) ∧
    (∀ (b : BufferBase) (n : Nat), b.offset ≤ b.size → b.size < w64 →
      ((b.read n).2.2).offset ≤ ((b.read n).2.2).size) ∧
    (∀ (b : BufferBase) (o n : Nat), (b.read_at o n).2.2 = b) ∧
    (∀ (b : PreallocatedBuffer) (src : List Nat) (n : Nat),
      b.offset ≤ b.size → b.size < w64 →
      ((b.write src n).2).offset ≤ ((b.write src n).2).size) ∧
    (∀ b : OwningMemoryBuffer,
      (b.clear).offset ≤ (b.clear).size ∧
      (b.reset_size).offset ≤ (b.reset_size).size) ∧
    (∀ b : OwningMemoryBuffer, b.offset ≤ b.size →
      ((b.move_ctor).1.offset ≤ (b.move_ctor).1.size ∧
       (b.move_ctor).2.offset ≤ (b.move_ctor).2.size)) ∧
    (∀ d s : OwningMemoryBuffer, d.offset ≤ d.size → s.offset ≤ s.size →
      ((OwningMemoryBuffer.move_assign d s).1.offset ≤
         (OwningMemoryBuffer.move_assign d s).1.size ∧
       (OwningMemoryBuffer.move_assign d s).2.offset ≤
         (OwningMemoryBuffer.move_assign d s).2.size)) ∧
    (∀ a b : OwningMemoryBuffer, a.offset ≤ a.size → b.offset ≤ b.size →
      ((OwningMemoryBuffer.swap a b).1.offset ≤ (OwningMemoryBuffer.swap a b).1.size ∧
       (OwningMemoryBuffer.swap a b).2.offset ≤ (OwningMemoryBuffer.swap a b).2.size)) ∧
    (∀ b : OwningMemoryBuffer, b.offset ≤ b.size → b.owns_data = true →
      b.dataPtr ≠ DataPtr.null → (b.copy_ctor).offset ≤ (b.copy_ctor).size) ∧
    (∀ d s : OwningMemoryBuffer, s.offset ≤ s.size → s.owns_data = true →
      s.dataPtr ≠ DataPtr.null →
      (OwningMemoryBuffer.copy_assign d s).offset ≤
        (OwningMemoryBuffer.copy_assign d s).size) ∧
    (∀ (b : OwningMemoryBuffer) (src : List Nat) (n : Nat) (st : Status)
      (b' : OwningMemoryBuffer), b.offset ≤ b.size →
      b.write_raw src n = Except.ok (st, b') → b'.offset ≤ b'.size) ∧
    (∀ (b : OwningMemoryBuffer) (src : List Nat) (o n : Nat) (st : Status)
      (b' : OwningMemoryBuffer), b.offset ≤ b.size →
      b.write_raw_at src o n = Except.ok (st, b') → b'.offset ≤ b'.size) ∧
    (∀ (b : OwningMemoryBuffer) (s : BufferBase), b.offset ≤ b.size →
      b.offset ≤ b.alloced_size → b.alloced_size < w64 →
      s.offset ≤ s.size → s.size < w64 →
      ((b.write_cbuf s).2.1.offset ≤ (b.write_cbuf s).2.1.size ∧
       (b.write_cbuf s).2.2.offset ≤ (b.write_cbuf s).2.2.size)) ∧
    (∀ (b : OwningMemoryBuffer) (s : BufferBase) (n : Nat) (st : Status)
      (b' : OwningMemoryBuffer) (s' : BufferBase), b.offset ≤ b.size →
      s.offset ≤ s.size → s.size < w64 →
      b.write_cbuf_n s n = Except.ok (st, b', s') →
      (b'.offset ≤ b'.size ∧ s'.offset ≤ s'.size)) ∧
    (∀ (b : OwningMemoryBuffer) (n : Nat) (st : Status) (b' : OwningMemoryBuffer),
      b.offset ≤ b.size → b.ensure_alloced_size n = Except.ok (st, b') →
      b'.offset ≤ b'.size) ∧
    (∀ (b : OwningMemoryBuffer) (n : Nat), b.offset ≤ b.size →
      ((b.realloc n).2).offset ≤ ((b.realloc n).2).size) := by
  refine ⟨?_, ?_, ?_, ?_, ?_, ?_, ?_, ?_, ?_, ?_, ?_, ?_, ?_, ?_, ?_, ?_, ?_, ?_⟩
  · intro b o b' h
    rw [BufferBase.set_offset] at h
    split at h
    · exact absurd h (by simp)
    · next hcond =>
      have hb : _ = b' := Except.ok.inj h
      rw [← hb]
      show o ≤ b.size
      omega
  · intro b n hinv hsz
    rw [BufferBase.advance_offset, usub_of_le b.size b.offset hinv hsz]
    split
    · exact le_refl b.size
    · next hc =>
      show (b.offset + n) % w64 ≤ b.size
      rw [Nat.mod_eq_of_lt (by omega)]
      omega
  · intro b
    exact Nat.zero_le _
  · intro b n hinv hsz
    rcases read_cases b n hinv hsz with ⟨_, heq⟩ | ⟨hle, heq⟩
    · rw [heq]
      exact hinv
    · rw [heq]
      show b.offset + n ≤ b.size
      omega
  · intro b o n
    rw [BufferBase.read_at]
    split
    · rfl
    · rfl
  · intro b src n hinv hsz
    rw [PreallocatedBuffer.write, usub_of_le b.size b.offset hinv hsz]
    split
    · exact hinv
    · next hc =>
      show (b.offset + n) % w64 ≤ b.size
      rw [Nat.mod_eq_of_lt (by omega)]
      omega
  · intro b
    exact ⟨Nat.zero_le _, Nat.zero_le _⟩
  · intro b h
    exact ⟨h, Nat.le_refl 0⟩
  · intro d s hd hs
    exact ⟨hs, hd⟩
  · intro a b ha hb
    exact ⟨hb, ha⟩
  · intro b h hown hptr
    have hcond : b.owns_data = true ∧ b.dataPtr ≠ DataPtr.null := ⟨hown, hptr⟩
    simp only [OwningMemoryBuffer.copy_ctor, if_pos hcond]
    exact h
  · intro d s hs hown hptr
    show (s.copy_ctor).offset ≤ (s.copy_ctor).size
    have hcond : s.owns_data = true ∧ s.dataPtr ≠ DataPtr.null := ⟨hown, hptr⟩
    simp only [OwningMemoryBuffer.copy_ctor, if_pos hcond]
    exact hs
  · intro b src n st b' hinv h
    by_cases hw : b.owns_data = false
    · rw [write_raw_not_owning b src n hw] at h
      have hb2 : b = b' := congrArg Prod.snd (Except.ok.inj h)
      rw [← hb2]
      exact hinv
    · have hown : b.owns_data = true := by revert hw; cases b.owns_data <;> simp
      cases hE : b.ensure_alloced_size ((b.offset + n) % w64) with
      | error e =>
        rw [write_raw_of_ensure_error b src n e hw hE] at h
        exact absurd h (by simp)
      | ok p =>
        obtain ⟨st1, b1⟩ := p
        have hst1 := ensure_status_ok b ((b.offset + n) % w64) st1 b1 hown hE
        subst hst1
        rw [write_raw_of_ensure b src n b1 hw hE] at h
        have hb2 : _ = b' := congrArg Prod.snd (Except.ok.inj h)
        rw [← hb2]
        exact le_max_left _ _
  · intro b src o n st b' hinv h
    by_cases hw : b.owns_data = false
    · rw [write_raw_at_not_owning b src o n hw] at h
      have hb2 : b = b' := congrArg Prod.snd (Except.ok.inj h)
      rw [← hb2]
      exact hinv
    · have hown : b.owns_data = true := by revert hw; cases b.owns_data <;> simp
      cases hE : b.ensure_alloced_size ((o + n) % w64) with
      | error e =>
        rw [write_raw_at_of_ensure_error b src o n e hw hE] at h
        exact absurd h (by simp)
      | ok p =>
        obtain ⟨st1, b1⟩ := p
        have hst1 := ensure_status_ok b ((o + n) % w64) st1 b1 hown hE
        subst hst1
        obtain ⟨ho1, hs1, _, _⟩ := ensure_fields _ _ _ _ hE
        rw [write_raw_at_of_ensure b src o n b1 hw hE] at h
        have hb2 : _ = b' := congrArg Prod.snd (Except.ok.inj h)
        rw [← hb2]
        show b1.offset ≤ max ((o + n) % w64) b1.size
        have hmax := le_max_right ((o + n) % w64) b1.size
        omega
  · intro b s hinv hoff halloc hsinv hssz
    by_cases hw : b.owns_data = false
    · rw [OwningMemoryBuffer.write_cbuf, if_pos hw]
      exact ⟨hinv, hsinv⟩
    · rw [write_cbuf_eq b s hw hoff halloc hsinv hssz]
      constructor
      · exact le_max_left _ _
      · show s.offset + min (b.alloced_size - b.offset) (s.size - s.offset) ≤ s.size
        omega
  · intro b s n st b' s' hinv hsinv hssz h
    by_cases hw : b.owns_data = false
    · rw [write_cbuf_n_not_owning b s n hw] at h
      have hb := Except.ok.inj h
      have hb2 : b = b' := congrArg (fun x => x.2.1) hb
      have hs2 : s = s' := congrArg (fun x => x.2.2) hb
      rw [← hb2, ← hs2]
      exact ⟨hinv, hsinv⟩
    · have hown : b.owns_data = true := by revert hw; cases b.owns_data <;> simp
      cases hE : b.ensure_alloced_size ((b.offset + n) % w64) with
      | error e =>
        rw [write_cbuf_n_of_ensure_error b s n e hw hE] at h
        exact absurd h (by simp)
      | ok p =>
        obtain ⟨st1, b1⟩ := p
        have hst1 := ensure_status_ok b ((b.offset + n) % w64) st1 b1 hown hE
        subst hst1
        obtain ⟨ho1, hs1, _, _⟩ := ensure_fields _ _ _ _ hE
        rcases read_cases s n hsinv hssz with ⟨hgt, heq⟩ | ⟨hle, heq⟩
        · rw [write_cbuf_n_of_read b s n b1 _ _ _ hw hE heq,
              if_pos (show (Status.BufferError msgReadOverflow) ≠ Status.Ok by simp)] at h
          have hb := Except.ok.inj h
          have hb2 : b1 = b' := congrArg (fun x => x.2.1) hb
          have hs2 : s = s' := congrArg (fun x => x.2.2) hb
          rw [← hb2, ← hs2]
          exact ⟨by omega, hsinv⟩
        · rw [write_cbuf_n_of_read b s n b1 _ _ _ hw hE heq,
              if_neg (show ¬ (Status.Ok ≠ Status.Ok) by simp)] at h
          have hb := Except.ok.inj h
          have hb2 : _ = b' := congrArg (fun x => x.2.1) hb
          have hs2 : _ = s' := congrArg (fun x => x.2.2) hb
          rw [← hb2, ← hs2]
          constructor
          · exact le_max_left _ _
          · show s.offset + n ≤ s.size
            omega
  · intro b n st b' hinv h
    obtain ⟨ho1, hs1, _, _⟩ := ensure_fields b n st b' h
    omega
  · intro b n hinv
    obtain ⟨ho1, hs1, _, _⟩ := realloc_fields b n
    omega

/-- C2 witness: concrete preserved-invariant instances for offset setting,
advancing, reading, preallocated writes, owning copies and raw writes. -/
theorem c2_witness :
    (({ dataBytes := some [1, 2], size := 2, offset := 1 } : BufferBase).advance_offset 5).offset ≤
      (({ dataBytes := some [1, 2], size := 2, offset := 1 } : BufferBase).advance_offset 5).size ∧
    ((baseC4.read 2).2.2).offset ≤ ((baseC4.read 2).2.2).size ∧
    ((pbC8.write [7] 1).2).offset ≤ ((pbC8.write [7] 1).2).size ∧
    (bufC5.copy_ctor).offset ≤ (bufC5.copy_ctor).size ∧
    (∃ b' : BufferBase, baseC9.set_offset 2 = Except.ok b' ∧ b'.offset ≤ b'.size) ∧
    (∃ b' : OwningMemoryBuffer, bufC5.write_raw [9, 9] 2 = Except.ok (Status.Ok, b') ∧
       b'.offset ≤ b'.size) := by
  obtain ⟨A1, A2, A3, A4, A5, A6, A7, A8, A9, A10, A11, A12, A13, A14, A15, A16, A17, A18⟩ :=
    c2_invariant_preservation
  refine ⟨A2 _ 5 (by decide) (by decide), A4 baseC4 2 (by decide) (by decide),
          A6 pbC8 [7] 1 (by decide) (by decide), A11 bufC5 (by decide) rfl (by decide),
          ?_, ?_⟩
  · exact ⟨{ baseC9 with offset := 2 }, rfl, A1 baseC9 2 _ rfl⟩
  · refine ⟨{ dataPtr := DataPtr.vecPtr, size := 3, offset := 3, vec := [7, 9, 9, 0],
              owns_data := true, preallocated := false }, rfl, ?_⟩
    exact A13 bufC5 [9, 9] 2 Status.Ok _ (by decide) rfl
